import Mathlib

/-!
Verification development for the BLS aggregation core of oxen-core
(`src/bls/bls_aggregator.cpp`).

The C++ code is shallowly embedded: byte strings become `List Nat`,
the external cryptographic primitives (keccak hashing, BLS signing and
verification) and the network transport are parameters of the embedded
functions, and the streaming bencoded-dictionary consumer of `oxenc`
(`bt_dict_consumer`: forward-only traversal over keys in sorted order)
is modelled explicitly, because the response handlers depend on its
forward-only behaviour.
-/

/-- Byte strings: each element is one byte value. -/
abbrev Bytes := List Nat

/-- Size in bytes of `eth::address`. -/
def ADDRESS_SIZE : Nat := 20

/-- Size in bytes of `eth::bls_public_key`. -/
def BLS_PK_SIZE : Nat := 64

/-- Size in bytes of `eth::bls_signature`. -/
def BLS_SIG_SIZE : Nat := 128

/-- The zero Ethereum address; `!address` in the C++ is true exactly for it. -/
def zeroAddress : Bytes := List.replicate ADDRESS_SIZE 0

/-- The status string `"200"` in ASCII bytes. -/
def str200 : Bytes := [50, 48, 48]

/-- The status string `"400"` in ASCII bytes. -/
def str400 : Bytes := [52, 48, 48]

/-- The status string `"403"` in ASCII bytes. -/
def str403 : Bytes := [52, 48, 51]

/-- The dictionary key `"address"` in ASCII bytes. -/
def keyAddress : Bytes := [97, 100, 100, 114, 101, 115, 115]

/-- The dictionary key `"balance"` in ASCII bytes. -/
def keyBalance : Bytes := [98, 97, 108, 97, 110, 99, 101]

/-- The dictionary key `"height"` in ASCII bytes. -/
def keyHeight : Bytes := [104, 101, 105, 103, 104, 116]

/-- The dictionary key `"signature"` in ASCII bytes. -/
def keySignature : Bytes := [115, 105, 103, 110, 97, 116, 117, 114, 101]

/-- The dictionary key `"exit"` in ASCII bytes. -/
def keyExit : Bytes := [101, 120, 105, 116]

/-- The dictionary key `"liquidate"` in ASCII bytes. -/
def keyLiquidate : Bytes := [108, 105, 113, 117, 105, 100, 97, 116, 101]

/-- Strict lexicographic order on byte strings (the order `std::string_view`
comparison gives on the dictionary keys). -/
def bytesLt : Bytes → Bytes → Bool
  | _, [] => false
  | [], _ :: _ => true
  | a :: as, b :: bs => if a < b then true else if b < a then false else bytesLt as bs

/-- A value of a bencoded dictionary entry: a byte string or an unsigned integer. -/
inductive BtVal where
  | str (s : Bytes)
  | int (n : Nat)
deriving DecidableEq, Repr

/-- One part of an omq reply: either a plain string part (e.g. the status code)
or a part that decodes as a bencoded dictionary, given as its entry list in wire
order. -/
inductive ReplyPart where
  | raw (s : Bytes)
  | dict (d : List (Bytes × BtVal))
deriving DecidableEq, Repr

/-- `oxenc::bt_dict_consumer::skip_until`: advance (discarding entries) while the
current key sorts strictly before the sought key; succeed only if the key is then
exactly the sought one.  The consumer is forward-only: an entry that has been
passed over can never be revisited. -/
def skip_until (d : List (Bytes × BtVal)) (key : Bytes) :
    Option (BtVal × List (Bytes × BtVal)) :=
  match d with
  | [] => none
  | (k, v) :: rest =>
      if bytesLt k key then skip_until rest key
      else if k = key then some (v, rest)
      else none

/-- `bt_dict_consumer::require<uint64_t>(key)`: `skip_until` plus consuming an
integer value; `none` models the exception thrown on a missing key or a
wrongly-typed value. -/
def requireInt (d : List (Bytes × BtVal)) (key : Bytes) :
    Option (Nat × List (Bytes × BtVal)) :=
  match skip_until d key with
  | some (BtVal.int n, rest) => some (n, rest)
  | _ => none

/-- `bt_dict_consumer::require<std::string_view>(key)`. -/
def requireStr (d : List (Bytes × BtVal)) (key : Bytes) :
    Option (Bytes × List (Bytes × BtVal)) :=
  match skip_until d key with
  | some (BtVal.str s, rest) => some (s, rest)
  | _ => none

/-- Whether a byte is an ASCII hex digit (`oxenc` hex character test). -/
def isHexDigit (c : Nat) : Bool :=
  (48 ≤ c && c ≤ 57) || (97 ≤ c && c ≤ 102) || (65 ≤ c && c ≤ 70)

/-- `oxenc::is_hex`: even length and every character a hex digit.  Note that it
is applied by `extract_1part_msg` to the whole argument, so a leading `0x`
(which contains the non-hex character `x`) makes it return `false`. -/
def is_hex (s : Bytes) : Bool :=
  s.length % 2 == 0 && s.all isHexDigit

/-- Numeric value of one ASCII hex digit. -/
def hexVal (c : Nat) : Nat :=
  if c ≤ 57 then c - 48 else if 97 ≤ c then c - 87 else c - 55

/-- Decode a hex byte string to the raw bytes it denotes
(`tools::make_from_hex_guts`). -/
def from_hex : Bytes → Bytes
  | a :: b :: rest => (hexVal a * 16 + hexVal b) :: from_hex rest
  | _ => []

/-- Outcome of `extract_1part_msg`: whether a `"400"` reply was sent, the
boolean return value, and the value stored into the output parameter `val`
(`none` means `val` was left untouched). -/
structure ExtractOutcome where
  replied400 : Bool
  returned : Bool
  stored : Option Bytes
deriving DecidableEq, Repr

/-- Shallow embedding of `extract_1part_msg` (bls_aggregator.cpp:106-137) for a
type of `sz` bytes.  Mirrors the source exactly, including that the third
branch (a raw `sz`-byte argument) computes `tools::make_from_guts<T>(m.data[0])`
but discards the result without assigning `val`, and that `oxenc::is_hex` is
applied to the whole first part including any `0x`/`0X` prefix. -/
def extract_1part_msg (sz : Nat) (data : List Bytes) : ExtractOutcome :=
  match data with
  | [m0] =>
      if m0.length = 2 + 2 * sz ∧ (m0.take 2 = [48, 120] ∨ m0.take 2 = [48, 88]) ∧
          is_hex m0 then
        { replied400 := false, returned := true, stored := some (from_hex (m0.drop 2)) }
      else if m0.length = 2 * sz ∧ is_hex m0 then
        { replied400 := false, returned := true, stored := some (from_hex m0) }
      else if m0.length = sz then
        { replied400 := false, returned := true, stored := none }
      else
        { replied400 := true, returned := false, stored := none }
  | _ => { replied400 := true, returned := false, stored := none }

/-- Claim C3: the three accepted encodings of the same four-byte value do not
all store the same decoded value: the raw-bytes branch returns `true` but
leaves the output parameter untouched (`stored = none`), the `0x`-prefixed hex
encoding is rejected with a `"400"` reply because `is_hex` is applied to the
whole string including the non-hex `0x` prefix, and only bare hex actually
stores the decoded value. -/
theorem c3_encodings_diverge :
    extract_1part_msg 4 [[1, 2, 3, 4]] =
      { replied400 := false, returned := true, stored := none } ∧
    extract_1part_msg 4 [[48, 120, 48, 49, 48, 50, 48, 51, 48, 52]] =
      { replied400 := true, returned := false, stored := none } ∧
    extract_1part_msg 4 [[48, 49, 48, 50, 48, 51, 48, 52]] =
      { replied400 := false, returned := true, stored := some [1, 2, 3, 4] } := by
  refine ⟨by decide, by decide, by decide⟩

/-- `service_nodes::service_node_address` as used by the aggregator: the node
identity pubkey, its BLS pubkey, and the x25519 pubkey used for the connection. -/
structure SNodeAddress where
  sn_pubkey : Bytes
  bls_pubkey : Bytes
  x_pubkey : Bytes
deriving DecidableEq, Repr

/-- `eth::BLSRequestResult`: the peer a request went to plus the transport
success flag. -/
structure BLSRequestResult where
  sn : SNodeAddress
  success : Bool
deriving DecidableEq, Repr

/-- Shallow embedding of `BLSAggregator::nodesRequest` (bls_aggregator.cpp:56-101)
as the per-peer callback invocation sequence it produces: one request is issued
per reachable service node, and the registered omq handler invokes the callback
exactly once per request with `{snodes[i], success}` and the reply parts.  The
blocking condition-variable barrier at the end of the C++ function means the
whole sequence has been delivered by the time the call returns, which this
sequential model reflects by returning the completed list. -/
def nodesRequest (snodes : List SNodeAddress)
    (transport : SNodeAddress → Bool × List ReplyPart) :
    List (BLSRequestResult × List ReplyPart) :=
  snodes.map (fun sn => ({ sn := sn, success := (transport sn).1 }, (transport sn).2))

/-- The mutable accumulator closed over by a response handler: the running
aggregate signature (modelled as the formal list of folded partial signatures;
`bls::Signature::clear` is `[]` and `add` is an append) and the contributor
list. -/
structure SigAccum where
  aggSig : List Bytes
  signers : List Bytes
deriving DecidableEq, Repr

/-- The body of the `try` block of the rewards response handler
(bls_aggregator.cpp:254-286), returning the partial signature to fold on
success and `none` where the C++ throws (which the surrounding `catch` turns
into a rejection).  The bencoded dictionary is consumed in exactly the source
order: `balance`, `height`, `signature`, then `address`. -/
def rewards_try (verify : Bytes → Bytes → Bytes → Bool)
    (resAddress : Bytes) (resAmount resHeight : Nat) (signedHash : Bytes)
    (rr : BLSRequestResult) (data : List ReplyPart) : Option Bytes :=
  match data with
  | [ReplyPart.raw s0, p1] =>
      if rr.success = false then none
      else if s0 ≠ str200 then none
      else
        match p1 with
        | ReplyPart.raw _ => none
        | ReplyPart.dict d0 =>
            match requireInt d0 keyBalance with
            | none => none
            | some (bal, d1) =>
                match requireInt d1 keyHeight with
                | none => none
                | some (hei, d2) =>
                    match requireStr d2 keySignature with
                    | none => none
                    | some (sigRaw, d3) =>
                        if sigRaw.length ≠ BLS_SIG_SIZE then none
                        else
                          match requireStr d3 keyAddress with
                          | none => none
                          | some (addrRaw, _) =>
                              if addrRaw.length ≠ ADDRESS_SIZE then none
                              else if resAddress ≠ addrRaw then none
                              else if resAmount ≠ bal ∨ hei ≠ resHeight then none
                              else if verify rr.sn.bls_pubkey sigRaw signedHash then
                                some sigRaw
                              else none
  | _ => none

/-- The rewards response handler: on success fold the signature and append the
peer's BLS pubkey (both under the same lock in the source); on any failure the
accumulator is left unchanged and nothing propagates to the caller. -/
def rewards_handler (verify : Bytes → Bytes → Bytes → Bool)
    (resAddress : Bytes) (resAmount resHeight : Nat) (signedHash : Bytes)
    (st : SigAccum) (rr : BLSRequestResult) (data : List ReplyPart) : SigAccum :=
  match rewards_try verify resAddress resAmount resHeight signedHash rr data with
  | some sig => { aggSig := st.aggSig ++ [sig], signers := st.signers ++ [rr.sn.bls_pubkey] }
  | none => st

/-- The `try` block of the exit/liquidation response handler
(bls_aggregator.cpp:400-426): status check, subject pubkey echoed under
`pubkey_key`, then the signature, then BLS verification. -/
def exit_try (verify : Bytes → Bytes → Bytes → Bool)
    (exitPk signedHash : Bytes) (pubkeyKey : Bytes)
    (rr : BLSRequestResult) (data : List ReplyPart) : Option Bytes :=
  match data with
  | [ReplyPart.raw s0, p1] =>
      if rr.success = false then none
      else if s0 ≠ str200 then none
      else
        match p1 with
        | ReplyPart.raw _ => none
        | ReplyPart.dict d0 =>
            match requireStr d0 pubkeyKey with
            | none => none
            | some (pkRaw, d1) =>
                if pkRaw.length ≠ BLS_PK_SIZE then none
                else if exitPk ≠ pkRaw then none
                else
                  match requireStr d1 keySignature with
                  | none => none
                  | some (sigRaw, _) =>
                      if sigRaw.length ≠ BLS_SIG_SIZE then none
                      else if verify rr.sn.bls_pubkey sigRaw signedHash then some sigRaw
                      else none
  | _ => none

/-- The exit/liquidation response handler. -/
def exit_handler (verify : Bytes → Bytes → Bytes → Bool)
    (exitPk signedHash : Bytes) (pubkeyKey : Bytes)
    (st : SigAccum) (rr : BLSRequestResult) (data : List ReplyPart) : SigAccum :=
  match exit_try verify exitPk signedHash pubkeyKey rr data with
  | some sig => { aggSig := st.aggSig ++ [sig], signers := st.signers ++ [rr.sn.bls_pubkey] }
  | none => st

/-- Folding the rewards handler over a delivered response sequence. -/
def rewards_process (verify : Bytes → Bytes → Bytes → Bool)
    (resAddress : Bytes) (resAmount resHeight : Nat) (signedHash : Bytes)
    (st : SigAccum) (deliveries : List (BLSRequestResult × List ReplyPart)) : SigAccum :=
  deliveries.foldl
    (fun s rd => rewards_handler verify resAddress resAmount resHeight signedHash s rd.1 rd.2)
    st

/-- Folding the exit/liquidation handler over a delivered response sequence. -/
def exit_process (verify : Bytes → Bytes → Bytes → Bool)
    (exitPk signedHash : Bytes) (pubkeyKey : Bytes)
    (st : SigAccum) (deliveries : List (BLSRequestResult × List ReplyPart)) : SigAccum :=
  deliveries.foldl (fun s rd => exit_handler verify exitPk signedHash pubkeyKey s rd.1 rd.2) st

set_option maxRecDepth 4000 in
/-- Claim C1: the code does not fold a fully valid rewards response.  The peer
reply below is a transport success whose parts are exactly the status `"200"`
plus one payload part; the payload echoes precisely the requested address,
balance 5 and height 7 in the sorted wire order the responder emits
(`address`, `balance`, `height`, `signature`); and the verification primitive
accepts the embedded signature against the peer's BLS pubkey and the locally
recomputed hash.  Still the handler leaves the aggregate and the contributor
list unchanged, because it consumes the forward-only bencoded dictionary in the
order `balance`, `height`, `signature`, `address`, and by the time it asks for
`address` the consumer is already past it. -/
theorem c1_valid_rewards_response_rejected :
    rewards_handler (fun _ _ _ => true) (List.replicate 20 1) 5 7 [9]
      { aggSig := [], signers := [] }
      { sn := { sn_pubkey := [3], bls_pubkey := List.replicate 64 4, x_pubkey := [6] },
        success := true }
      [ReplyPart.raw str200,
       ReplyPart.dict
         [(keyAddress, BtVal.str (List.replicate 20 1)),
          (keyBalance, BtVal.int 5),
          (keyHeight, BtVal.int 7),
          (keySignature, BtVal.str (List.replicate 128 2))]] =
      { aggSig := [], signers := [] } := by
  decide

/-- `MAX_CONNECTIONS` from `BLSAggregator::nodesRequest`. -/
def MAX_CONNECTIONS : Nat := 900

/-- One iteration of the dispatch loop of `nodesRequest`
(bls_aggregator.cpp:70-97) acting on the `active_connections` counter, under a
schedule in which no in-flight request has completed yet.  The branch condition
is the literal `if (1)` of the source: the first branch increments the counter
and dispatches immediately; the `else` branch containing the
`cv.wait(..., active_connections < MAX_CONNECTIONS)` admission gate is
unreachable. -/
def dispatch_step (active : Nat) : Nat :=
  if true then active + 1 else active

/-- `active_connections` after dispatching `n` requests with no completions. -/
def dispatch_active : Nat → Nat
  | 0 => 0
  | n + 1 => dispatch_step (dispatch_active n)

/-- Claim C2: the admission cap is never enforced.  Every loop iteration takes
the `if (1)` branch and dispatches unconditionally, so after `n` dispatches with
no completions there are `n` requests in flight; in particular with 901
reachable peers the 901st request is dispatched while 900 are already in
flight, exceeding `MAX_CONNECTIONS`. -/
theorem c2_admission_cap_not_enforced :
    (∀ n, dispatch_active n = n) ∧
    MAX_CONNECTIONS < dispatch_active (MAX_CONNECTIONS + 1) := by
  have h : ∀ n, dispatch_active n = n := by
    intro n
    induction n with
    | zero => rfl
    | succ k ih => simp [dispatch_active, dispatch_step, ih]
  exact ⟨h, by simp [h, MAX_CONNECTIONS]⟩

/-- Modelled from the spec: the reward domain-tag name (`BLSSigner::rewardTag`),
an opaque constant whose value is irrelevant here, only its distinctness. -/
def rewardTag : Bytes := [1]

/-- Modelled from the spec: the removal domain-tag name (`BLSSigner::removalTag`). -/
def removalTag : Bytes := [2]

/-- Modelled from the spec: the liquidation domain-tag name
(`BLSSigner::liquidateTag`). -/
def liquidateTag : Bytes := [3]

/-- Modelled from the spec: `BLSSigner::buildTagHash(tag, nettype)` is
`hash(tag || chainid || contract)` (source comment at bls_aggregator.cpp:153-156:
we sign `H(H(rewardTag || chainid || contract) || ...)`); the network identity
is passed as the chain-id and contract byte strings, and the hash primitive
`keccak` is a parameter. -/
def buildTagHash (keccak : List Bytes → Bytes) (tag cid ctr : Bytes) : Bytes :=
  keccak [tag, cid, ctr]

/-- `tools::encode_integer_be<32>`: a 32-byte big-endian encoding. -/
def encodeBE32 (n : Nat) : Bytes :=
  (List.range 32).map (fun i => n / 256 ^ (31 - i) % 256)

/-- The hash signed by the responder `get_reward_balance`
(bls_aggregator.cpp:157-159): `keccak(buildTagHash(rewardTag), addr, be32(amount))`. -/
def responder_rewards_hash (keccak : List Bytes → Bytes) (cid ctr addr : Bytes)
    (amount : Nat) : Bytes :=
  keccak [buildTagHash keccak rewardTag cid ctr, addr, encodeBE32 amount]

/-- The hash recomputed by the aggregator `rewards_request`
(bls_aggregator.cpp:237-240). -/
def aggregator_rewards_hash (keccak : List Bytes → Bytes) (cid ctr addr : Bytes)
    (amount : Nat) : Bytes :=
  keccak [buildTagHash keccak rewardTag cid ctr, addr, encodeBE32 amount]

/-- The hash signed by the responders `get_exit` / `get_liquidation`
(bls_aggregator.cpp:332-333 and 359-360) for a given tag. -/
def responder_subject_hash (keccak : List Bytes → Bytes) (tag cid ctr pk : Bytes) : Bytes :=
  keccak [buildTagHash keccak tag cid ctr, pk]

/-- The hash recomputed by `aggregateExitOrLiquidate` (bls_aggregator.cpp:388-389). -/
def aggregator_subject_hash (keccak : List Bytes → Bytes) (tag cid ctr pk : Bytes) : Bytes :=
  keccak [buildTagHash keccak tag cid ctr, pk]

/-- Claim C7: for every hash primitive, network identity and claim, the
responder-side and aggregator-side message hashes coincide, and both have
exactly the double-hashed shape `hash(hash(tag || network) || payload)` — for
rewards with `address || amount-as-32-byte-big-endian` as payload, for
exit/liquidation with the target pubkey as payload. -/
theorem c7_message_hash_agreement :
    ∀ (keccak : List Bytes → Bytes) (cid ctr addr pk tag : Bytes) (amount : Nat),
      responder_rewards_hash keccak cid ctr addr amount =
          aggregator_rewards_hash keccak cid ctr addr amount ∧
      responder_rewards_hash keccak cid ctr addr amount =
          keccak [keccak [rewardTag, cid, ctr], addr, encodeBE32 amount] ∧
      responder_subject_hash keccak tag cid ctr pk =
          aggregator_subject_hash keccak tag cid ctr pk ∧
      responder_subject_hash keccak tag cid ctr pk =
          keccak [keccak [tag, cid, ctr], pk] := by
  intro keccak cid ctr addr pk tag amount
  exact ⟨rfl, rfl, rfl, rfl⟩

/-- A responder's reply: the status string (as bytes) and, when the reply is a
bencoded dictionary, its entry list; `none` models a plain-text error body.  A
signature is produced only inside a dictionary body. -/
structure ResponderReply where
  status : Bytes
  body : Option (List (Bytes × BtVal))
deriving DecidableEq, Repr

/-- `BLSAggregator::get_reward_balance` (bls_aggregator.cpp:139-172) after the
argument has been extracted: the ledger lookup result `(batchdbHeight, amount)`
is a parameter; a zero recorded balance is answered with status `"400"` and no
signature, otherwise the node signs the rewards hash and replies `"200"` with
the sorted dictionary `address`, `balance`, `height`, `signature`. -/
def get_reward_balance (keccak : List Bytes → Bytes) (sign : Bytes → Bytes)
    (cid ctr : Bytes) (batchdbHeight amount : Nat) (ethAddr : Bytes) : ResponderReply :=
  if amount = 0 then { status := str400, body := none }
  else
    { status := str200,
      body := some
        [(keyAddress, BtVal.str ethAddr),
         (keyBalance, BtVal.int amount),
         (keyHeight, BtVal.int batchdbHeight),
         (keySignature, BtVal.str (sign (responder_rewards_hash keccak cid ctr ethAddr amount)))] }

/-- `BLSAggregator::get_exit` (bls_aggregator.cpp:316-342) after argument
extraction: a non-removable key is answered with status `"403"` and no
signature. -/
def get_exit (keccak : List Bytes → Bytes) (sign : Bytes → Bytes)
    (cid ctr : Bytes) (removable : Bool) (exitingPk : Bytes) : ResponderReply :=
  if removable = false then { status := str403, body := none }
  else
    { status := str200,
      body := some
        [(keyExit, BtVal.str exitingPk),
         (keySignature,
          BtVal.str (sign (responder_subject_hash keccak removalTag cid ctr exitingPk)))] }

/-- `BLSAggregator::get_liquidation` (bls_aggregator.cpp:344-369) after argument
extraction: a non-liquidatable key is answered with status `"403"` and no
signature. -/
def get_liquidation (keccak : List Bytes → Bytes) (sign : Bytes → Bytes)
    (cid ctr : Bytes) (liquidatable : Bool) (liquidatingPk : Bytes) : ResponderReply :=
  if liquidatable = false then { status := str403, body := none }
  else
    { status := str200,
      body := some
        [(keyLiquidate, BtVal.str liquidatingPk),
         (keySignature,
          BtVal.str (sign (responder_subject_hash keccak liquidateTag cid ctr liquidatingPk)))] }

/-- Claim C5 counterexample: a zero recorded balance in `get_reward_balance` is
reported with status `"400"`, not `"403"` as the claim states (the bytes of
`"400"` and `"403"` differ in the last character). -/
theorem c5_zero_balance_is_400 :
    (get_reward_balance (fun _ => []) (fun _ => []) [] [] 7 0 (List.replicate 20 1)).status =
        str400 ∧
    str400 ≠ str403 := by
  exact ⟨rfl, by decide⟩

/-- Claim C5 as amended: a zero recorded balance in `get_reward_balance` is
reported to the requesting peer with status `"400"`, while a non-removable key
in `get_exit` and a non-liquidatable key in `get_liquidation` are reported with
status `"403"`; in all three cases the reply carries no dictionary body, hence
no signature is produced. -/
theorem c5_precondition_failure_statuses
    (keccak : List Bytes → Bytes) (sign : Bytes → Bytes) (cid ctr : Bytes)
    (batchdbHeight amount : Nat) (addr pk pk2 : Bytes) (removable liquidatable : Bool) :
    (amount = 0 →
      get_reward_balance keccak sign cid ctr batchdbHeight amount addr =
        { status := str400, body := none }) ∧
    (removable = false →
      get_exit keccak sign cid ctr removable pk = { status := str403, body := none }) ∧
    (liquidatable = false →
      get_liquidation keccak sign cid ctr liquidatable pk2 =
        { status := str403, body := none }) := by
  refine ⟨fun h => ?_, fun h => ?_, fun h => ?_⟩
  · simp [get_reward_balance, h]
  · simp [get_exit, h]
  · simp [get_liquidation, h]

/-- Witness for `c5_precondition_failure_statuses` at a concrete input. -/
theorem c5_precondition_failure_statuses_witness :
    (get_reward_balance (fun _ => []) (fun _ => []) [] [] 7 0 [5] =
        { status := str400, body := none }) ∧
    (get_exit (fun _ => []) (fun _ => []) [] [] false [5] =
        { status := str403, body := none }) ∧
    (get_liquidation (fun _ => []) (fun _ => []) [] [] false [5] =
        { status := str403, body := none }) := by
  have h := c5_precondition_failure_statuses (fun _ => []) (fun _ => []) [] [] 7 0 [5] [5] [5]
      false false
  exact ⟨h.1 rfl, h.2.1 rfl, h.2.2 rfl⟩

/-- `eth::BLSRewardsResponse`: the claim fields fixed before dispatch plus the
aggregate built from the responses. -/
structure BLSRewardsResponse where
  address : Bytes
  amount : Nat
  height : Nat
  signed_hash : Bytes
  signature : List Bytes
  signers_bls_pubkeys : List Bytes
deriving DecidableEq, Repr

/-- `eth::AggregateExitResponse`. -/
structure AggregateExitResponse where
  exit_pubkey : Bytes
  signed_hash : Bytes
  signature : List Bytes
  signers_bls_pubkeys : List Bytes
deriving DecidableEq, Repr

/-- The local validation error message of `rewards_request` for the zero
address (bls_aggregator.cpp:205-213). -/
def errZeroAddress : Nat := 1

/-- The local validation error for a zero ledger amount (lines 215-221). -/
def errZeroAmount : Nat := 2

/-- The local validation error for a ledger height ahead of the local chain
height (lines 223-231). -/
def errHeightAhead : Nat := 3

/-- Whether an `Except` value is an error (a thrown `std::invalid_argument`). -/
def isErr {ε α : Type} : Except ε α → Bool
  | Except.error _ => true
  | Except.ok _ => false

/-- Shallow embedding of `BLSAggregator::rewards_request`
(bls_aggregator.cpp:187-314).  Inputs: the hash and verification primitives,
the network identity `(cid, ctr)`, the local chain height
(`service_node_list.height()`), the requested address, the ledger lookup result
`(height, amount)` from `get_accrued_earnings`, the reachable peers and the
transport.  The first component of the result is the list of peers a request
was dispatched to; the second is the thrown local-validation error or the
returned `BLSRewardsResponse`.  The claim fields and `signed_hash` are fixed
before `nodesRequest` runs; the response handler only touches the signature
accumulator. -/
def rewards_request (keccak : List Bytes → Bytes) (verify : Bytes → Bytes → Bytes → Bool)
    (cid ctr : Bytes) (chainHeight : Nat) (address : Bytes) (height amount : Nat)
    (snodes : List SNodeAddress) (transport : SNodeAddress → Bool × List ReplyPart) :
    List SNodeAddress × Except Nat BLSRewardsResponse :=
  if address = zeroAddress then ([], Except.error errZeroAddress)
  else if amount = 0 then ([], Except.error errZeroAmount)
  else if chainHeight < height then ([], Except.error errHeightAhead)
  else
    let signedHash := aggregator_rewards_hash keccak cid ctr address amount
    let acc := rewards_process verify address amount height signedHash
        { aggSig := [], signers := [] } (nodesRequest snodes transport)
    (snodes,
     Except.ok
       { address := address, amount := amount, height := height, signed_hash := signedHash,
         signature := acc.aggSig, signers_bls_pubkeys := acc.signers })

/-- Shallow embedding of `BLSAggregator::aggregateExitOrLiquidate`
(bls_aggregator.cpp:375-456); `aggregateExit` instantiates it with
`removalTag`/`keyExit`, `aggregateLiquidation` with
`liquidateTag`/`keyLiquidate`. -/
def aggregateExitOrLiquidate (keccak : List Bytes → Bytes)
    (verify : Bytes → Bytes → Bytes → Bool) (cid ctr : Bytes) (blsPubkey tag : Bytes)
    (pubkeyKey : Bytes) (snodes : List SNodeAddress)
    (transport : SNodeAddress → Bool × List ReplyPart) : AggregateExitResponse :=
  let signedHash := aggregator_subject_hash keccak tag cid ctr blsPubkey
  let acc := exit_process verify blsPubkey signedHash pubkeyKey
      { aggSig := [], signers := [] } (nodesRequest snodes transport)
  { exit_pubkey := blsPubkey, signed_hash := signedHash,
    signature := acc.aggSig, signers_bls_pubkeys := acc.signers }

/-- Claim C6: the fan-out invokes the per-response callback exactly once per
reachable peer, in dispatch order, passing that peer's identity, the transport
success flag and the reply data, and the invocation sequence delivered before
`nodesRequest` returns covers every peer; one peer's failure flag has no effect
on the invocations for the other peers, since each entry depends only on that
peer's own transport outcome. -/
theorem c6_callback_once_per_peer
    (snodes : List SNodeAddress) (transport : SNodeAddress → Bool × List ReplyPart) :
    (nodesRequest snodes transport).map (fun rd => (rd.1.sn, rd.1.success, rd.2)) =
      snodes.map (fun sn => (sn, (transport sn).1, (transport sn).2)) ∧
    (nodesRequest snodes transport).length = snodes.length := by
  constructor
  · simp [nodesRequest]
  · simp [nodesRequest]

/-- Claim C8: `rewards_request` throws a local validation error if and only if
the address is the zero address, or the ledger amount is zero, or the ledger
height exceeds the local chain height; and whenever it throws, no network
request has been dispatched. -/
theorem c8_local_validation (keccak : List Bytes → Bytes)
    (verify : Bytes → Bytes → Bytes → Bool) (cid ctr : Bytes) (chainHeight : Nat)
    (address : Bytes) (height amount : Nat) (snodes : List SNodeAddress)
    (transport : SNodeAddress → Bool × List ReplyPart) :
    (isErr (rewards_request keccak verify cid ctr chainHeight address height amount snodes
          transport).2 = true ↔
        (address = zeroAddress ∨ amount = 0 ∨ chainHeight < height)) ∧
    ((address = zeroAddress ∨ amount = 0 ∨ chainHeight < height) →
      (rewards_request keccak verify cid ctr chainHeight address height amount snodes
          transport).1 = []) := by
  unfold rewards_request
  by_cases h1 : address = zeroAddress
  · simp [h1, isErr]
  · by_cases h2 : amount = 0
    · simp [h1, h2, isErr]
    · by_cases h3 : chainHeight < height
      · simp [h1, h2, h3, isErr]
      · simp [h1, h2, h3, isErr]

/-- Witness for `c8_local_validation`: for the zero address the call throws and
dispatches no request. -/
theorem c8_local_validation_witness :
    isErr (rewards_request (fun _ => []) (fun _ _ _ => true) [] [] 10 zeroAddress 3 5 []
        (fun _ => (true, []))).2 = true ∧
    (rewards_request (fun _ => []) (fun _ _ _ => true) [] [] 10 zeroAddress 3 5 []
        (fun _ => (true, []))).1 = [] := by
  have h := c8_local_validation (fun _ => []) (fun _ _ _ => true) [] [] 10 zeroAddress 3 5 []
      (fun _ => (true, []))
  exact ⟨h.1.mpr (Or.inl rfl), h.2 (Or.inl rfl)⟩

/-- A rejected rewards response leaves the accumulator unchanged. -/
theorem rewards_handler_rejected (verify : Bytes → Bytes → Bytes → Bool)
    (resAddress : Bytes) (resAmount resHeight : Nat) (signedHash : Bytes)
    (st : SigAccum) (rr : BLSRequestResult) (data : List ReplyPart)
    (h : rewards_try verify resAddress resAmount resHeight signedHash rr data = none) :
    rewards_handler verify resAddress resAmount resHeight signedHash st rr data = st := by
  simp [rewards_handler, h]

/-- A rejected exit/liquidation response leaves the accumulator unchanged. -/
theorem exit_handler_rejected (verify : Bytes → Bytes → Bytes → Bool)
    (exitPk signedHash pubkeyKey : Bytes) (st : SigAccum) (rr : BLSRequestResult)
    (data : List ReplyPart)
    (h : exit_try verify exitPk signedHash pubkeyKey rr data = none) :
    exit_handler verify exitPk signedHash pubkeyKey st rr data = st := by
  simp [exit_handler, h]

/-- If every delivered rewards response is rejected, the whole fold is the
identity on the accumulator. -/
theorem rewards_process_all_rejected (verify : Bytes → Bytes → Bytes → Bool)
    (resAddress : Bytes) (resAmount resHeight : Nat) (signedHash : Bytes) :
    ∀ (ds : List (BLSRequestResult × List ReplyPart)) (st : SigAccum),
      (∀ rd ∈ ds,
        rewards_try verify resAddress resAmount resHeight signedHash rd.1 rd.2 = none) →
      rewards_process verify resAddress resAmount resHeight signedHash st ds = st := by
  intro ds
  induction ds with
  | nil => intro st _; rfl
  | cons rd rest ih =>
      intro st h
      have hhd : rewards_try verify resAddress resAmount resHeight signedHash rd.1 rd.2 =
          none := h rd (List.mem_cons_self rd rest)
      have htl : ∀ x ∈ rest,
          rewards_try verify resAddress resAmount resHeight signedHash x.1 x.2 = none :=
        fun x hx => h x (List.mem_cons_of_mem rd hx)
      calc rewards_process verify resAddress resAmount resHeight signedHash st (rd :: rest)
          = rewards_process verify resAddress resAmount resHeight signedHash
              (rewards_handler verify resAddress resAmount resHeight signedHash st rd.1 rd.2)
              rest := rfl
        _ = rewards_process verify resAddress resAmount resHeight signedHash st rest := by
              rw [rewards_handler_rejected verify resAddress resAmount resHeight signedHash st
                rd.1 rd.2 hhd]
        _ = st := ih st htl

/-- If every delivered exit/liquidation response is rejected, the fold is the
identity on the accumulator. -/
theorem exit_process_all_rejected (verify : Bytes → Bytes → Bytes → Bool)
    (exitPk signedHash pubkeyKey : Bytes) :
    ∀ (ds : List (BLSRequestResult × List ReplyPart)) (st : SigAccum),
      (∀ rd ∈ ds, exit_try verify exitPk signedHash pubkeyKey rd.1 rd.2 = none) →
      exit_process verify exitPk signedHash pubkeyKey st ds = st := by
  intro ds
  induction ds with
  | nil => intro st _; rfl
  | cons rd rest ih =>
      intro st h
      have hhd : exit_try verify exitPk signedHash pubkeyKey rd.1 rd.2 = none :=
        h rd (List.mem_cons_self rd rest)
      have htl : ∀ x ∈ rest, exit_try verify exitPk signedHash pubkeyKey x.1 x.2 = none :=
        fun x hx => h x (List.mem_cons_of_mem rd hx)
      calc exit_process verify exitPk signedHash pubkeyKey st (rd :: rest)
          = exit_process verify exitPk signedHash pubkeyKey
              (exit_handler verify exitPk signedHash pubkeyKey st rd.1 rd.2) rest := rfl
        _ = exit_process verify exitPk signedHash pubkeyKey st rest := by
              rw [exit_handler_rejected verify exitPk signedHash pubkeyKey st rd.1 rd.2 hhd]
        _ = st := ih st htl

/-- Claim C9: when no delivered response passes validation, both aggregation
calls still return a result normally: the aggregate signature is the cleared
identity (`[]`, the empty formal sum `bls::Signature::clear` gives) and the
contributor list is empty; `rewards_request` returns `Except.ok` (its only
error path is the pre-dispatch local validation, assumed passed here). -/
theorem c9_zero_valid_responses (keccak : List Bytes → Bytes)
    (verify : Bytes → Bytes → Bytes → Bool) (cid ctr : Bytes) (chainHeight : Nat)
    (address : Bytes) (height amount : Nat) (blsPubkey tag pubkeyKey : Bytes)
    (snodes : List SNodeAddress) (transport : SNodeAddress → Bool × List ReplyPart)
    (h1 : address ≠ zeroAddress) (h2 : amount ≠ 0) (h3 : ¬ chainHeight < height)
    (hrej : ∀ rd ∈ nodesRequest snodes transport,
      rewards_try verify address amount height
        (aggregator_rewards_hash keccak cid ctr address amount) rd.1 rd.2 = none)
    (hrejE : ∀ rd ∈ nodesRequest snodes transport,
      exit_try verify blsPubkey (aggregator_subject_hash keccak tag cid ctr blsPubkey)
        pubkeyKey rd.1 rd.2 = none) :
    (rewards_request keccak verify cid ctr chainHeight address height amount snodes
        transport).2 =
      Except.ok
        { address := address, amount := amount, height := height,
          signed_hash := aggregator_rewards_hash keccak cid ctr address amount,
          signature := [], signers_bls_pubkeys := [] } ∧
    aggregateExitOrLiquidate keccak verify cid ctr blsPubkey tag pubkeyKey snodes
        transport =
      { exit_pubkey := blsPubkey,
        signed_hash := aggregator_subject_hash keccak tag cid ctr blsPubkey,
        signature := [], signers_bls_pubkeys := [] } := by
  have hz := rewards_process_all_rejected verify address amount height
    (aggregator_rewards_hash keccak cid ctr address amount)
    (nodesRequest snodes transport) { aggSig := [], signers := [] } hrej
  have he := exit_process_all_rejected verify blsPubkey
    (aggregator_subject_hash keccak tag cid ctr blsPubkey) pubkeyKey
    (nodesRequest snodes transport) { aggSig := [], signers := [] } hrejE
  constructor
  · unfold rewards_request
    rw [if_neg h1, if_neg h2, if_neg h3]
    simp only [hz]
  · unfold aggregateExitOrLiquidate
    simp only [he]

/-- Witness for `c9_zero_valid_responses` with no reachable peers (so no
response passes validation vacuously) and a passing local claim. -/
theorem c9_zero_valid_responses_witness :
    (rewards_request (fun _ => []) (fun _ _ _ => true) [] [] 10 (List.replicate 20 1) 3 5 []
        (fun _ => (true, []))).2 =
      Except.ok
        { address := List.replicate 20 1, amount := 5, height := 3,
          signed_hash :=
            aggregator_rewards_hash (fun _ => []) [] [] (List.replicate 20 1) 5,
          signature := [], signers_bls_pubkeys := [] } ∧
    aggregateExitOrLiquidate (fun _ => []) (fun _ _ _ => true) [] [] (List.replicate 64 4)
        removalTag keyExit [] (fun _ => (true, [])) =
      { exit_pubkey := List.replicate 64 4,
        signed_hash :=
          aggregator_subject_hash (fun _ => []) removalTag [] [] (List.replicate 64 4),
        signature := [], signers_bls_pubkeys := [] } := by
  exact c9_zero_valid_responses (fun _ => []) (fun _ _ _ => true) [] [] 10
    (List.replicate 20 1) 3 5 (List.replicate 64 4) removalTag keyExit []
    (fun _ => (true, []))
    (by decide) (by decide) (by decide)
    (by intro rd hrd; simp [nodesRequest] at hrd)
    (by intro rd hrd; simp [nodesRequest] at hrd)

/-- Claim C10: the claim fields of the returned result are exactly the
caller-supplied and ledger-sourced values fixed before any peer is contacted;
processing of responses (whatever the peers and transport do) never changes
them — the handlers only touch the signature accumulator. -/
theorem c10_claim_fields_fixed (keccak : List Bytes → Bytes)
    (verify : Bytes → Bytes → Bytes → Bool) (cid ctr : Bytes) (chainHeight : Nat)
    (address : Bytes) (height amount : Nat) (blsPubkey tag pubkeyKey : Bytes)
    (snodes : List SNodeAddress) (transport : SNodeAddress → Bool × List ReplyPart) :
    (∀ r : BLSRewardsResponse,
      (rewards_request keccak verify cid ctr chainHeight address height amount snodes
          transport).2 = Except.ok r →
      r.address = address ∧ r.amount = amount ∧ r.height = height ∧
        r.signed_hash = aggregator_rewards_hash keccak cid ctr address amount) ∧
    ((aggregateExitOrLiquidate keccak verify cid ctr blsPubkey tag pubkeyKey snodes
        transport).exit_pubkey = blsPubkey ∧
     (aggregateExitOrLiquidate keccak verify cid ctr blsPubkey tag pubkeyKey snodes
        transport).signed_hash = aggregator_subject_hash keccak tag cid ctr blsPubkey) := by
  refine ⟨?_, rfl, rfl⟩
  intro r hr
  unfold rewards_request at hr
  split_ifs at hr with h1 h2 h3
  have hr2 := Except.ok.inj hr
  subst hr2
  exact ⟨rfl, rfl, rfl, rfl⟩

/-- Witness for `c10_claim_fields_fixed` at a concrete successful run. -/
theorem c10_claim_fields_fixed_witness :
    (({ address := List.replicate 20 1, amount := 5, height := 3, signed_hash := [],
        signature := [], signers_bls_pubkeys := [] } : BLSRewardsResponse).address =
          List.replicate 20 1 ∧
      ({ address := List.replicate 20 1, amount := 5, height := 3, signed_hash := [],
         signature := [], signers_bls_pubkeys := [] } : BLSRewardsResponse).amount = 5) ∧
    (aggregateExitOrLiquidate (fun _ => []) (fun _ _ _ => true) [] []
        (List.replicate 64 4) liquidateTag keyLiquidate [] (fun _ => (true, []))).exit_pubkey =
      List.replicate 64 4 := by
  have h := c10_claim_fields_fixed (fun _ => []) (fun _ _ _ => true) [] [] 10
    (List.replicate 20 1) 3 5 (List.replicate 64 4) liquidateTag keyLiquidate []
    (fun _ => (true, []))
  have hr := h.1
    { address := List.replicate 20 1, amount := 5, height := 3, signed_hash := [],
      signature := [], signers_bls_pubkeys := [] } rfl
  exact ⟨⟨hr.1, hr.2.1⟩, h.2.1⟩

/-- Each handler invocation either leaves the contributor list unchanged or
appends exactly the responding peer's BLS pubkey. -/
theorem exit_handler_signers_cases (verify : Bytes → Bytes → Bytes → Bool)
    (exitPk signedHash pubkeyKey : Bytes) (st : SigAccum) (rr : BLSRequestResult)
    (data : List ReplyPart) :
    (exit_handler verify exitPk signedHash pubkeyKey st rr data).signers = st.signers ∨
    (exit_handler verify exitPk signedHash pubkeyKey st rr data).signers =
      st.signers ++ [rr.sn.bls_pubkey] := by
  rcases h : exit_try verify exitPk signedHash pubkeyKey rr data with _ | sig
  · exact Or.inl (by simp [exit_handler, h])
  · exact Or.inr (by simp [exit_handler, h])

/-- Invariant proof for the contributor list: folding the exit handler over a
delivery sequence whose peers have pairwise-distinct BLS pubkeys (and none of
which is already a contributor) keeps the contributor list duplicate-free. -/
theorem exit_process_signers_nodup (verify : Bytes → Bytes → Bytes → Bool)
    (exitPk signedHash pubkeyKey : Bytes) :
    ∀ (ds : List (BLSRequestResult × List ReplyPart)) (st : SigAccum),
      st.signers.Nodup →
      (ds.map (fun rd => rd.1.sn.bls_pubkey)).Nodup →
      (∀ p ∈ st.signers, p ∉ ds.map (fun rd => rd.1.sn.bls_pubkey)) →
      (exit_process verify exitPk signedHash pubkeyKey st ds).signers.Nodup := by
  intro ds
  induction ds with
  | nil => intro st h1 _ _; exact h1
  | cons rd rest ih =>
      intro st h1 h2 h3
      have hpk_not_in_st : rd.1.sn.bls_pubkey ∉ st.signers := by
        intro hmem
        exact h3 _ hmem (by simp)
      have h2' : (rest.map (fun rd => rd.1.sn.bls_pubkey)).Nodup := by
        rw [List.map_cons] at h2
        exact h2.of_cons
      have hpk_not_in_rest : rd.1.sn.bls_pubkey ∉
          rest.map (fun rd => rd.1.sn.bls_pubkey) := by
        rw [List.map_cons] at h2
        exact (List.nodup_cons.mp h2).1
      have hproc : exit_process verify exitPk signedHash pubkeyKey st (rd :: rest) =
          exit_process verify exitPk signedHash pubkeyKey
            (exit_handler verify exitPk signedHash pubkeyKey st rd.1 rd.2) rest := rfl
      rw [hproc]
      rcases exit_handler_signers_cases verify exitPk signedHash pubkeyKey st rd.1 rd.2
        with hkeep | happ
      · refine ih _ (by rw [hkeep]; exact h1) h2' ?_
        intro p hp
        rw [hkeep] at hp
        exact fun hcontra => h3 p hp (by simp [hcontra])
      · refine ih _ ?_ h2' ?_
        · rw [happ]
          refine List.Nodup.append h1 (List.nodup_singleton _) ?_
          intro a ha hb
          rw [List.mem_singleton] at hb
          subst hb
          exact hpk_not_in_st ha
        · intro p hp
          rw [happ] at hp
          rcases List.mem_append.mp hp with hin | hsing
          · exact fun hcontra => h3 p hin (by simp [hcontra])
          · rw [List.mem_singleton] at hsing
            subst hsing
            exact hpk_not_in_rest

set_option maxRecDepth 8000 in
/-- Claim C4 counterexample: the response handler performs no deduplication.
Delivering the same valid, correctly-signed exit response twice folds its
signature twice and puts the peer's BLS public key into the contributor list
twice. -/
theorem c4_duplicate_delivery_double_counts :
    (exit_process (fun _ _ _ => true) (List.replicate 64 4) [9] keyExit
        { aggSig := [], signers := [] }
        [({ sn := { sn_pubkey := [3], bls_pubkey := List.replicate 64 7, x_pubkey := [6] },
            success := true },
          [ReplyPart.raw str200,
           ReplyPart.dict
             [(keyExit, BtVal.str (List.replicate 64 4)),
              (keySignature, BtVal.str (List.replicate 128 2))]]),
         ({ sn := { sn_pubkey := [3], bls_pubkey := List.replicate 64 7, x_pubkey := [6] },
            success := true },
          [ReplyPart.raw str200,
           ReplyPart.dict
             [(keyExit, BtVal.str (List.replicate 64 4)),
              (keySignature, BtVal.str (List.replicate 128 2))]])]).signers =
      [List.replicate 64 7, List.replicate 64 7] := by
  decide

/-- Each rewards handler invocation either leaves the contributor list unchanged
or appends exactly the responding peer's BLS pubkey. -/
theorem rewards_handler_signers_cases (verify : Bytes → Bytes → Bytes → Bool)
    (resAddress : Bytes) (resAmount resHeight : Nat) (signedHash : Bytes)
    (st : SigAccum) (rr : BLSRequestResult) (data : List ReplyPart) :
    (rewards_handler verify resAddress resAmount resHeight signedHash st rr data).signers =
      st.signers ∨
    (rewards_handler verify resAddress resAmount resHeight signedHash st rr data).signers =
      st.signers ++ [rr.sn.bls_pubkey] := by
  rcases h : rewards_try verify resAddress resAmount resHeight signedHash rr data with _ | sig
  · exact Or.inl (by simp [rewards_handler, h])
  · exact Or.inr (by simp [rewards_handler, h])

/-- Invariant proof for the rewards contributor list: folding the rewards
handler over a delivery sequence whose peers have pairwise-distinct BLS pubkeys
(and none of which is already a contributor) keeps the contributor list
duplicate-free. -/
theorem rewards_process_signers_nodup (verify : Bytes → Bytes → Bytes → Bool)
    (resAddress : Bytes) (resAmount resHeight : Nat) (signedHash : Bytes) :
    ∀ (ds : List (BLSRequestResult × List ReplyPart)) (st : SigAccum),
      st.signers.Nodup →
      (ds.map (fun rd => rd.1.sn.bls_pubkey)).Nodup →
      (∀ p ∈ st.signers, p ∉ ds.map (fun rd => rd.1.sn.bls_pubkey)) →
      (rewards_process verify resAddress resAmount resHeight signedHash st ds).signers.Nodup := by
  intro ds
  induction ds with
  | nil => intro st h1 _ _; exact h1
  | cons rd rest ih =>
      intro st h1 h2 h3
      have hpk_not_in_st : rd.1.sn.bls_pubkey ∉ st.signers := by
        intro hmem
        exact h3 _ hmem (by simp)
      have h2' : (rest.map (fun rd => rd.1.sn.bls_pubkey)).Nodup := by
        rw [List.map_cons] at h2
        exact h2.of_cons
      have hpk_not_in_rest : rd.1.sn.bls_pubkey ∉
          rest.map (fun rd => rd.1.sn.bls_pubkey) := by
        rw [List.map_cons] at h2
        exact (List.nodup_cons.mp h2).1
      have hproc : rewards_process verify resAddress resAmount resHeight signedHash st
            (rd :: rest) =
          rewards_process verify resAddress resAmount resHeight signedHash
            (rewards_handler verify resAddress resAmount resHeight signedHash st rd.1 rd.2)
            rest := rfl
      rw [hproc]
      rcases rewards_handler_signers_cases verify resAddress resAmount resHeight signedHash st
        rd.1 rd.2 with hkeep | happ
      · refine ih _ (by rw [hkeep]; exact h1) h2' ?_
        intro p hp
        rw [hkeep] at hp
        exact fun hcontra => h3 p hp (by simp [hcontra])
      · refine ih _ ?_ h2' ?_
        · rw [happ]
          refine List.Nodup.append h1 (List.nodup_singleton _) ?_
          intro a ha hb
          rw [List.mem_singleton] at hb
          subst hb
          exact hpk_not_in_st ha
        · intro p hp
          rw [happ] at hp
          rcases List.mem_append.mp hp with hin | hsing
          · exact fun hcontra => h3 p hin (by simp [hcontra])
          · rw [List.mem_singleton] at hsing
            subst hsing
            exact hpk_not_in_rest

/-- Claim C4 as amended: the fan-out delivers exactly one response per peer, and
under that delivery discipline a peer whose BLS pubkey is distinct from all
other peers' contributes at most once, in every aggregation call — both the
contributor list of a successful rewards aggregation and the contributor list
of an exit or liquidation aggregation are duplicate-free.  (The handlers
themselves do not deduplicate: a duplicated delivery of one response is folded
twice, per the counterexample.) -/
theorem c4_at_most_once_per_peer (keccak : List Bytes → Bytes)
    (verify : Bytes → Bytes → Bytes → Bool) (cid ctr : Bytes) (chainHeight : Nat)
    (address : Bytes) (height amount : Nat) (blsPubkey tag pubkeyKey : Bytes)
    (snodes : List SNodeAddress) (transport : SNodeAddress → Bool × List ReplyPart)
    (h : (snodes.map (fun sn => sn.bls_pubkey)).Nodup) :
    (∀ r : BLSRewardsResponse,
      (rewards_request keccak verify cid ctr chainHeight address height amount snodes
          transport).2 = Except.ok r →
      r.signers_bls_pubkeys.Nodup) ∧
    (aggregateExitOrLiquidate keccak verify cid ctr blsPubkey tag pubkeyKey snodes
        transport).signers_bls_pubkeys.Nodup := by
  have hmap : (nodesRequest snodes transport).map (fun rd => rd.1.sn.bls_pubkey) =
      snodes.map (fun sn => sn.bls_pubkey) := by
    simp [nodesRequest]
  constructor
  · intro r hr
    unfold rewards_request at hr
    split_ifs at hr with h1 h2 h3
    have hr2 := Except.ok.inj hr
    subst hr2
    show (rewards_process verify address amount height
        (aggregator_rewards_hash keccak cid ctr address amount)
        { aggSig := [], signers := [] } (nodesRequest snodes transport)).signers.Nodup
    refine rewards_process_signers_nodup verify address amount height
      (aggregator_rewards_hash keccak cid ctr address amount)
      (nodesRequest snodes transport) { aggSig := [], signers := [] } List.nodup_nil ?_ ?_
    · rw [hmap]; exact h
    · intro p hp
      exact absurd hp (List.not_mem_nil p)
  · show (exit_process verify blsPubkey
        (aggregator_subject_hash keccak tag cid ctr blsPubkey) pubkeyKey
        { aggSig := [], signers := [] } (nodesRequest snodes transport)).signers.Nodup
    refine exit_process_signers_nodup verify blsPubkey
      (aggregator_subject_hash keccak tag cid ctr blsPubkey) pubkeyKey
      (nodesRequest snodes transport) { aggSig := [], signers := [] } List.nodup_nil ?_ ?_
    · rw [hmap]; exact h
    · intro p hp
      exact absurd hp (List.not_mem_nil p)

/-- Witness for `c4_at_most_once_per_peer`: two peers with distinct BLS pubkeys
yield duplicate-free contributor lists in both aggregation calls (the rewards
run returns `Except.ok` with an empty contributor list, the exit run folds both
peers). -/
theorem c4_at_most_once_per_peer_witness :
    ({ address := List.replicate 20 1, amount := 5, height := 3, signed_hash := [9],
       signature := [], signers_bls_pubkeys := [] } :
        BLSRewardsResponse).signers_bls_pubkeys.Nodup ∧
    (aggregateExitOrLiquidate (fun _ => [9]) (fun _ _ _ => true) [] [] (List.replicate 64 4)
        removalTag keyExit
        [{ sn_pubkey := [1], bls_pubkey := [11], x_pubkey := [21] },
         { sn_pubkey := [2], bls_pubkey := [12], x_pubkey := [22] }]
        (fun _ =>
          (true,
           [ReplyPart.raw str200,
            ReplyPart.dict
              [(keyExit, BtVal.str (List.replicate 64 4)),
               (keySignature, BtVal.str (List.replicate 128 2))]]))).signers_bls_pubkeys.Nodup := by
  have h := c4_at_most_once_per_peer (fun _ => [9]) (fun _ _ _ => true) [] [] 10
    (List.replicate 20 1) 3 5 (List.replicate 64 4) removalTag keyExit
    [{ sn_pubkey := [1], bls_pubkey := [11], x_pubkey := [21] },
     { sn_pubkey := [2], bls_pubkey := [12], x_pubkey := [22] }]
    (fun _ =>
      (true,
       [ReplyPart.raw str200,
        ReplyPart.dict
          [(keyExit, BtVal.str (List.replicate 64 4)),
           (keySignature, BtVal.str (List.replicate 128 2))]]))
    (by decide)
  exact ⟨h.1
    { address := List.replicate 20 1, amount := 5, height := 3, signed_hash := [9],
      signature := [], signers_bls_pubkeys := [] } rfl, h.2⟩
